import Mathlib

/-!
Shallow embedding of the scoring and tiering engine of the account research
and tiering tool: the `calculateScores` and `exportResults` functions of
`src/pages/Results.tsx`, over the data model of `src/types/index.ts`.

JavaScript numbers are modelled as exact rationals.  The pieces of
JavaScript semantics the engine leans on are embedded explicitly: strict
equality (`===`), truthiness of a `string | number | boolean` value, the
relational comparison `x > 0` (which coerces strings via ToNumber), the
stability of `Array.prototype.sort`, and template-literal stringification.
-/

namespace AccountTiering

/-- `Question.type` from `src/types/index.ts`. -/
inductive QuestionType
  | boolean
  | number
  | multiple_choice
deriving DecidableEq

/-- A runtime value of the union type `string | number | boolean`
(the type of `AccountAnswer.answer`). -/
inductive AnswerValue
  | bool (b : Bool)
  | num (n : ℚ)
  | str (s : String)
deriving DecidableEq

/-- The `Question` interface of `src/types/index.ts`. -/
structure Question where
  id : String
  text : String
  type : QuestionType
  weight : ℚ
  options : Option (List String)
  companyId : String
  userId : String
  createdAt : String
deriving DecidableEq

/-- The `Account` interface of `src/types/index.ts`. -/
structure Account where
  id : String
  name : String
  industry : String
  companySize : String
  revenue : String
  location : String
  website : Option String
  notes : Option String
  userId : String
  createdAt : String
deriving DecidableEq

/-- The `AccountAnswer` interface of `src/types/index.ts`. -/
structure AccountAnswer where
  id : String
  accountId : String
  questionId : String
  answer : AnswerValue
  userId : String
  createdAt : String
deriving DecidableEq

/-- The tier letters `'A' | 'B' | 'C' | 'D'`. -/
inductive Tier
  | A
  | B
  | C
  | D
deriving DecidableEq

/-- The `AccountScore` interface of `src/types/index.ts`. -/
structure AccountScore where
  accountId : String
  totalScore : ℚ
  maxScore : ℚ
  percentage : ℤ
  tier : Tier
  rank : ℕ
deriving DecidableEq

/-- The `EvaluationResult` interface of `src/types/index.ts`. -/
structure EvaluationResult where
  account : Account
  score : AccountScore
  answers : List AccountAnswer
deriving DecidableEq

/-! ### JavaScript value semantics -/

/-- JavaScript truthiness of a `string | number | boolean` value:
`false`, `0` and `""` are falsy, everything else is truthy. -/
def jsTruthy : AnswerValue → Bool
  | .bool b => b
  | .num n => decide (n ≠ 0)
  | .str s => s != ""

/-- White space and line terminator characters that ToNumber trims. -/
def isJsSpace (c : Char) : Bool :=
  c == ' ' || c == '\t' || c == '\n' || c == '\r' ||
  c == Char.ofNat 11 || c == Char.ofNat 12 || c == Char.ofNat 160 ||
  c == Char.ofNat 0x2028 || c == Char.ofNat 0x2029 || c == Char.ofNat 0xFEFF

/-- Numeric value of a digit character in bases up to 36. -/
def digitVal (c : Char) : ℕ :=
  if c.isDigit then c.toNat - 48
  else if 'a' ≤ c && c ≤ 'z' then c.toNat - 87
  else c.toNat - 55

/-- Value of a digit string in the given base (most significant first). -/
def digitsVal (base : ℕ) (ds : List Char) : ℕ :=
  ds.foldl (fun n c => base * n + digitVal c) 0

/-- Hexadecimal digit characters. -/
def isHexDigit (c : Char) : Bool :=
  c.isDigit || ('a' ≤ c && c ≤ 'f') || ('A' ≤ c && c ≤ 'F')

/-- A JavaScript number as ToNumber can yield it: NaN, an infinity, or a
finite value (modelled exactly as a rational). -/
inductive JsNumber
  | nan
  | infinite (negative : Bool)
  | finite (q : ℚ)
deriving DecidableEq

/-- The optional exponent part of a decimal string literal (`e`/`E`,
optional sign, digits).  `none` when the remaining characters are not a
well-formed exponent part. -/
def parseExponent : List Char → Option ℤ
  | [] => some 0
  | c :: rest =>
    if c == 'e' || c == 'E' then
      match rest with
      | '+' :: ds =>
          if !ds.isEmpty && ds.all Char.isDigit then some ((digitsVal 10 ds : ℕ) : ℤ) else none
      | '-' :: ds =>
          if !ds.isEmpty && ds.all Char.isDigit then some (-((digitsVal 10 ds : ℕ) : ℤ)) else none
      | ds =>
          if !ds.isEmpty && ds.all Char.isDigit then some ((digitsVal 10 ds : ℕ) : ℤ) else none
    else none

/-- An unsigned decimal numeric string: `Infinity`, or decimal digits with
an optional fraction and an optional exponent. -/
def parseDecimal (l : List Char) : JsNumber :=
  if l = ['I', 'n', 'f', 'i', 'n', 'i', 't', 'y'] then .infinite false
  else
    let intDigits := l.takeWhile Char.isDigit
    let rest := l.dropWhile Char.isDigit
    match rest with
    | '.' :: rest2 =>
        let fracDigits := rest2.takeWhile Char.isDigit
        let rest3 := rest2.dropWhile Char.isDigit
        if intDigits.isEmpty && fracDigits.isEmpty then .nan
        else
          match parseExponent rest3 with
          | some e =>
              .finite (((digitsVal 10 intDigits : ℚ) +
                (digitsVal 10 fracDigits : ℚ) / (10 : ℚ) ^ fracDigits.length) * (10 : ℚ) ^ e)
          | none => .nan
    | _ =>
        if intDigits.isEmpty then .nan
        else
          match parseExponent rest with
          | some e => .finite ((digitsVal 10 intDigits : ℚ) * (10 : ℚ) ^ e)
          | none => .nan

/-- ECMAScript ToNumber applied to a string: trim white space, then an
optional sign with a decimal literal or `Infinity`, or an unsigned radix
literal (`0x`, `0o`, `0b`); anything else is NaN, the empty remainder is 0. -/
def jsStringToNumber (s : String) : JsNumber :=
  let l := ((s.toList.dropWhile isJsSpace).reverse.dropWhile isJsSpace).reverse
  match l with
  | [] => .finite 0
  | '+' :: rest => parseDecimal rest
  | '-' :: rest =>
      match parseDecimal rest with
      | .finite q => .finite (-q)
      | .infinite _ => .infinite true
      | .nan => .nan
  | '0' :: c :: ds =>
      if c == 'x' || c == 'X' then
        if !ds.isEmpty && ds.all isHexDigit then .finite (digitsVal 16 ds : ℚ) else .nan
      else if c == 'o' || c == 'O' then
        if !ds.isEmpty && ds.all (fun d => '0' ≤ d && d ≤ '7') then .finite (digitsVal 8 ds : ℚ)
        else .nan
      else if c == 'b' || c == 'B' then
        if !ds.isEmpty && ds.all (fun d => d == '0' || d == '1') then .finite (digitsVal 2 ds : ℚ)
        else .nan
      else parseDecimal l
  | _ => parseDecimal l

/-- The JavaScript comparison `v > 0` on a `string | number | boolean`
value: strings are coerced through ToNumber, `true` is `1`, `false` is `0`,
and a NaN comparison is false. -/
def jsGtZero : AnswerValue → Bool
  | .bool b => b
  | .num n => decide (0 < n)
  | .str s =>
      match jsStringToNumber s with
      | .nan => false
      | .infinite negative => !negative
      | .finite q => decide (0 < q)

/-! ### The scoring engine (`calculateScores` in `src/pages/Results.tsx`) -/

/-- The `switch (question.type)` of `calculateScores`: the score of one
answered question.  `boolean` compares with strict equality `=== true`;
`number` uses the JavaScript comparison `> 0`; `multiple_choice` tests
truthiness of the stored answer. -/
def questionScore (question : Question) (answer : AccountAnswer) : ℚ :=
  match question.type with
  | .boolean => if answer.answer = AnswerValue.bool true then question.weight else 0
  | .number => if jsGtZero answer.answer then question.weight else 0
  | .multiple_choice => if jsTruthy answer.answer then question.weight else 0

/-- One iteration of the `questions.forEach` loop: the state is the pair
`(totalScore, maxScore)`.  Every question adds its weight to `maxScore`;
`accountAnswers.find(a => a.questionId === question.id)` looks up the
answer, and only a found answer contributes its `questionScore`. -/
def scoreStep (accountAnswers : List AccountAnswer) (state : ℚ × ℚ)
    (question : Question) : ℚ × ℚ :=
  let maxScore := state.2 + question.weight
  match accountAnswers.find? (fun a => a.questionId == question.id) with
  | some answer => (state.1 + questionScore question answer, maxScore)
  | none => (state.1, maxScore)

/-- The tier thresholds applied to a percentage. -/
def tierOf (percentage : ℤ) : Tier :=
  if 80 ≤ percentage then .A
  else if 60 ≤ percentage then .B
  else if 40 ≤ percentage then .C
  else .D

/-- The per-account body of `calculateScores`: filter the answers of the
account, fold the question loop, derive percentage and tier, and package
the `EvaluationResult` with the placeholder `rank := 0`. -/
def evalAccount (questions : List Question) (answers : List AccountAnswer)
    (account : Account) : EvaluationResult :=
  let accountAnswers := answers.filter (fun a => a.accountId == account.id)
  let scores := questions.foldl (scoreStep accountAnswers) (0, 0)
  let totalScore := scores.1
  let maxScore := scores.2
  let percentage : ℤ := if 0 < maxScore then round (totalScore / maxScore * 100) else 0
  { account := account
    score :=
      { accountId := account.id
        totalScore := totalScore
        maxScore := maxScore
        percentage := percentage
        tier := tierOf percentage
        rank := 0 }
    answers := accountAnswers }

/-- Insertion step of the stable sort modelling
`sort((a, b) => b.score.percentage - a.score.percentage)`: a result moves
past exactly the results with a strictly smaller percentage, so equal
percentages keep their relative order. -/
def insertByPercentage (r : EvaluationResult) :
    List EvaluationResult → List EvaluationResult
  | [] => [r]
  | x :: xs =>
      if x.score.percentage ≤ r.score.percentage then r :: x :: xs
      else x :: insertByPercentage r xs

/-- Stable sort by percentage descending (the ECMAScript `Array.prototype.sort`
with the comparator above is required to be stable). -/
def sortByPercentageDesc : List EvaluationResult → List EvaluationResult
  | [] => []
  | r :: rs => insertByPercentage r (sortByPercentageDesc rs)

/-- `evaluationResults.forEach((result, index) => result.score.rank = index + 1)`,
phrased with the rank of the head passed explicitly. -/
def assignRanks : ℕ → List EvaluationResult → List EvaluationResult
  | _, [] => []
  | i, r :: rs => { r with score := { r.score with rank := i } } :: assignRanks (i + 1) rs

/-- The whole of `calculateScores`: evaluate every account in input order,
stable-sort by percentage descending, then assign ranks `1, 2, ...`. -/
def calculateScores (accounts : List Account) (questions : List Question)
    (answers : List AccountAnswer) : List EvaluationResult :=
  assignRanks 1 (sortByPercentageDesc (accounts.map (evalAccount questions answers)))

/-! ### CSV export (`exportResults` in `src/pages/Results.tsx`) -/

/-- The tier letter as a string. -/
def tierToString : Tier → String
  | .A => "A"
  | .B => "B"
  | .C => "C"
  | .D => "D"

/-- Decimal digits of a fractional part `0 ≤ q < 1`, fuel-bounded (every
number printable by JavaScript has a short terminating expansion). -/
def fracDigitsAux : ℕ → ℚ → List Char
  | 0, _ => []
  | fuel + 1, q =>
      if q = 0 then []
      else Char.ofNat (48 + (⌊q * 10⌋).toNat) :: fracDigitsAux fuel (q * 10 - ⌊q * 10⌋)

/-- JavaScript `ToString` of a finite number in a template literal:
integers print with no fractional part, other values print sign, integer
part, a dot and the decimal expansion. -/
def jsRatToString (q : ℚ) : String :=
  let sign := if q < 0 then "-" else ""
  let a := |q|
  let fr := a - ⌊a⌋
  if fr = 0 then sign ++ toString (⌊a⌋).toNat
  else sign ++ toString (⌊a⌋).toNat ++ "." ++ String.mk (fracDigitsAux 20 fr)

/-- One data row of the CSV: the array
`[rank, name, industry, total/max, percentage%, tier]` with every entry
already stringified the way `row.join(',')` stringifies it. -/
def resultRow (result : EvaluationResult) : List String :=
  [toString result.score.rank,
   result.account.name,
   result.account.industry,
   jsRatToString result.score.totalScore ++ "/" ++ jsRatToString result.score.maxScore,
   toString result.score.percentage ++ "%",
   tierToString result.score.tier]

/-- `exportResults`: the header row and one row per result, each row joined
with `,` and the rows joined with newlines. -/
def exportResults (results : List EvaluationResult) : String :=
  let csvRows : List (List String) :=
    ["Rank", "Company", "Industry", "Score", "Percentage", "Tier"] :: results.map resultRow
  String.intercalate "\n" (csvRows.map (fun row => String.intercalate "," row))

/-! ### Concrete fixtures used by the witnesses -/

/-- A concrete account. -/
def sampleAccount : Account :=
  { id := "a1", name := "Acme", industry := "Tech", companySize := "11-50",
    revenue := "1M", location := "Berlin", website := none, notes := none,
    userId := "u1", createdAt := "2024-01-01" }

/-- A concrete `boolean` question of weight 10. -/
def boolQuestion : Question :=
  { id := "q1", text := "Uses a CRM?", type := QuestionType.boolean, weight := 10,
    options := none, companyId := "c1", userId := "u1", createdAt := "2024-01-01" }

/-- A concrete `number` question of weight 4. -/
def numberQuestion : Question :=
  { boolQuestion with id := "q2", type := QuestionType.number, weight := 4 }

/-- A concrete `multiple_choice` question of weight 10. -/
def mcQuestion : Question :=
  { boolQuestion with
    id := "q3"
    type := QuestionType.multiple_choice
    options := some ["Small", "Large"] }

/-- An answer storing the boolean `true` for `boolQuestion`. -/
def boolTrueAnswer : AccountAnswer :=
  { id := "ans1", accountId := "a1", questionId := "q1",
    answer := AnswerValue.bool true, userId := "u1", createdAt := "2024-01-01" }

/-- An answer storing the string `"true"` for `boolQuestion`. -/
def strTrueAnswer : AccountAnswer :=
  { boolTrueAnswer with id := "ans2", answer := AnswerValue.str "true" }

/-- An answer storing the number 5 for `numberQuestion`. -/
def numFiveAnswer : AccountAnswer :=
  { boolTrueAnswer with id := "ans3", questionId := "q2", answer := AnswerValue.num 5 }

/-- An answer storing the number 0 for `numberQuestion`. -/
def numZeroAnswer : AccountAnswer :=
  { boolTrueAnswer with id := "ans4", questionId := "q2", answer := AnswerValue.num 0 }

/-- An answer storing the boolean `true` for the `multiple_choice` question. -/
def mcBoolAnswer : AccountAnswer :=
  { boolTrueAnswer with id := "ans5", questionId := "q3", answer := AnswerValue.bool true }

/-- An answer storing a string outside `mcQuestion.options`. -/
def mcOffMenuAnswer : AccountAnswer :=
  { boolTrueAnswer with id := "ans6", questionId := "q3", answer := AnswerValue.str "Gigantic" }

/-- An answer storing the empty string for the `multiple_choice` question. -/
def mcEmptyAnswer : AccountAnswer :=
  { boolTrueAnswer with id := "ans7", questionId := "q3", answer := AnswerValue.str "" }

/-! ### Helper lemmas about the question loop -/

/-- What one question adds to `totalScore`: the `questionScore` of the first
answer of the account whose `questionId` matches, or `0` when none does. -/
def contribution (accountAnswers : List AccountAnswer) (question : Question) : ℚ :=
  match accountAnswers.find? (fun a => a.questionId == question.id) with
  | some answer => questionScore question answer
  | none => 0

theorem scoreStep_eq (aas : List AccountAnswer) (st : ℚ × ℚ) (q : Question) :
    scoreStep aas st q = (st.1 + contribution aas q, st.2 + q.weight) := by
  unfold scoreStep contribution
  cases h : aas.find? (fun a => a.questionId == q.id) <;> simp [h]

theorem foldl_scoreStep (aas : List AccountAnswer) (qs : List Question) (t m : ℚ) :
    qs.foldl (scoreStep aas) (t, m) =
      (t + (qs.map (contribution aas)).sum, m + (qs.map Question.weight).sum) := by
  induction qs generalizing t m with
  | nil => simp
  | cons q qs ih =>
      rw [List.foldl_cons, scoreStep_eq, ih]
      refine Prod.ext ?_ ?_ <;> simp <;> ring

theorem evalAccount_totalScore (questions : List Question) (answers : List AccountAnswer)
    (account : Account) :
    (evalAccount questions answers account).score.totalScore =
      ((questions.map
        (contribution (answers.filter (fun a => a.accountId == account.id))))).sum := by
  simp only [evalAccount]
  rw [foldl_scoreStep]
  simp

theorem evalAccount_maxScore (questions : List Question) (answers : List AccountAnswer)
    (account : Account) :
    (evalAccount questions answers account).score.maxScore =
      (questions.map Question.weight).sum := by
  simp only [evalAccount]
  rw [foldl_scoreStep]
  simp

/-! ### C1 and C4 -/

/-- C1: the `percentage` of every evaluated account equals
`round(100 * totalScore / maxScore)` when `maxScore > 0`, and is exactly `0`
when `maxScore ≤ 0` (including the zero-question case and a negative maximum
arising from negative weights). -/
theorem percentage_round_formula (questions : List Question)
    (answers : List AccountAnswer) (account : Account) :
    (evalAccount questions answers account).score.percentage =
      if 0 < (evalAccount questions answers account).score.maxScore then
        round (100 * (evalAccount questions answers account).score.totalScore /
          (evalAccount questions answers account).score.maxScore)
      else 0 := by
  simp only [evalAccount]
  split_ifs with h
  · congr 1
    ring
  · rfl

/-- C4: the `maxScore` of every evaluated account is the sum of the weights
of all questions of the input list, whatever the answers are. -/
theorem maxScore_is_weight_sum (questions : List Question)
    (answers : List AccountAnswer) (account : Account) :
    (evalAccount questions answers account).score.maxScore =
      (questions.map Question.weight).sum := by
  simp only [evalAccount]
  rw [foldl_scoreStep]
  simp

/-! ### C2: the tier thresholds -/

/-- Ordinal value of a tier, `A` highest, for monotonicity statements. -/
def tierValue : Tier → ℕ
  | .A => 3
  | .B => 2
  | .C => 1
  | .D => 0

theorem tierValue_tierOf_mono {p q : ℤ} (h : p ≤ q) :
    tierValue (tierOf p) ≤ tierValue (tierOf q) := by
  unfold tierOf
  split_ifs <;> simp [tierValue] <;> omega

/-- C2: the tier of every evaluated account is the pure function `tierOf` of
its percentage alone; `tierOf` assigns exactly `A` at `80 ≤ p`, `B` on
`[60, 80)`, `C` on `[40, 60)` and `D` below `40`; and it is monotone in the
percentage. -/
theorem tier_of_percentage (questions : List Question)
    (answers : List AccountAnswer) (account : Account) :
    (evalAccount questions answers account).score.tier =
      tierOf (evalAccount questions answers account).score.percentage
    ∧ (∀ p : ℤ,
        (tierOf p = Tier.A ↔ 80 ≤ p)
        ∧ (tierOf p = Tier.B ↔ 60 ≤ p ∧ p < 80)
        ∧ (tierOf p = Tier.C ↔ 40 ≤ p ∧ p < 60)
        ∧ (tierOf p = Tier.D ↔ p < 40))
    ∧ (∀ p q : ℤ, tierValue (tierOf (min p q)) ≤ tierValue (tierOf (max p q))) := by
  refine ⟨rfl, fun p => ?_, fun p q => ?_⟩
  · refine ⟨?_, ?_, ?_, ?_⟩ <;> (unfold tierOf; split_ifs <;> simp_all <;> omega)
  · rcases le_total p q with h | h
    · rw [min_eq_left h, max_eq_right h]; exact tierValue_tierOf_mono h
    · rw [min_eq_right h, max_eq_left h]; exact tierValue_tierOf_mono h

/-! ### C5: boolean questions score on strict equality with `true` -/

/-- C5: a `boolean` question contributes its full weight exactly when the
stored answer is the boolean value `true`, and `0` otherwise; in particular
the string `"true"` contributes `0`. -/
theorem boolean_score_strict_true (question : Question)
    (hq : question.type = QuestionType.boolean) (answer : AccountAnswer) :
    questionScore question answer =
      (if answer.answer = AnswerValue.bool true then question.weight else 0)
    ∧ (answer.answer = AnswerValue.str "true" → questionScore question answer = 0) := by
  unfold questionScore
  rw [hq]
  refine ⟨rfl, fun h => ?_⟩
  rw [h]
  simp

/-- Witness for C5 at a concrete boolean question of weight 10: the boolean
answer `true` scores 10, the string answer `"true"` scores 0. -/
theorem boolean_score_strict_true_witness :
    questionScore boolQuestion boolTrueAnswer = 10
    ∧ questionScore boolQuestion strTrueAnswer = 0 := by
  constructor
  · rw [(boolean_score_strict_true boolQuestion rfl boolTrueAnswer).1]
    rfl
  · exact (boolean_score_strict_true boolQuestion rfl strTrueAnswer).2 rfl

/-! ### C6: number questions score on strictly positive numeric answers -/

/-- C6: a `number` question with a numeric stored answer contributes its
full weight exactly when the number is strictly greater than `0`; zero and
negative numbers contribute `0`. -/
theorem number_score_positive (question : Question)
    (hq : question.type = QuestionType.number) (answer : AccountAnswer) (n : ℚ)
    (ha : answer.answer = AnswerValue.num n) :
    questionScore question answer = if 0 < n then question.weight else 0 := by
  unfold questionScore
  rw [hq, ha]
  simp [jsGtZero]

/-- Witness for C6 at the concrete number question of weight 4: the answer
5 scores 4, the answer 0 scores 0. -/
theorem number_score_positive_witness :
    questionScore numberQuestion numFiveAnswer = 4
    ∧ questionScore numberQuestion numZeroAnswer = 0 := by
  constructor
  · rw [number_score_positive numberQuestion rfl numFiveAnswer 5 rfl]
    norm_num [numberQuestion, boolQuestion]
  · rw [number_score_positive numberQuestion rfl numZeroAnswer 0 rfl]
    norm_num

/-! ### C7: multiple-choice questions score on truthiness -/

/-- C7 as the claim states it: a `multiple_choice` question contributes its
full weight exactly when the stored answer is a truthy, non-empty string. -/
def multipleChoiceClaimAsStated : Prop :=
  ∀ (question : Question), question.type = QuestionType.multiple_choice →
    ∀ (answer : AccountAnswer),
      (questionScore question answer = question.weight ↔
        ∃ s : String, answer.answer = AnswerValue.str s ∧ s ≠ "")

/-- Counterexample to C7 as stated: for the concrete `multiple_choice`
question of weight 10 and a stored answer that is the boolean `true` — not a
string at all — the engine still awards the full weight 10, because the code
tests JavaScript truthiness of the value, not string-ness. -/
theorem multiple_choice_counterexample : ¬ multipleChoiceClaimAsStated := by
  intro h
  have h10 : questionScore mcQuestion mcBoolAnswer = mcQuestion.weight := rfl
  obtain ⟨s, hs, -⟩ := (h mcQuestion rfl mcBoolAnswer).mp h10
  exact AnswerValue.noConfusion hs

/-- C7 (amended): a `multiple_choice` question contributes its full weight
exactly when the stored answer is truthy — any non-empty string (whether or
not it is one of the question's options), the boolean `true`, or a nonzero
number — and `0` on a falsy answer (`""`, `false`, or `0`). -/
theorem multiple_choice_score_truthy (question : Question)
    (hq : question.type = QuestionType.multiple_choice) (answer : AccountAnswer) :
    questionScore question answer =
      (match answer.answer with
        | AnswerValue.str s => if s = "" then 0 else question.weight
        | AnswerValue.bool b => if b then question.weight else 0
        | AnswerValue.num n => if n = 0 then 0 else question.weight) := by
  unfold questionScore
  rw [hq]
  cases ha : answer.answer with
  | bool b => cases b <;> simp [jsTruthy]
  | num n => by_cases h : n = 0 <;> simp [jsTruthy, h]
  | str s => by_cases h : s = "" <;> simp [jsTruthy, h]

/-- Witness for the amended C7 at the concrete `multiple_choice` question of
weight 10: a non-empty string outside the option set scores 10, the empty
string scores 0, and the boolean `true` scores 10. -/
theorem multiple_choice_score_truthy_witness :
    questionScore mcQuestion mcOffMenuAnswer = 10
    ∧ questionScore mcQuestion mcEmptyAnswer = 0
    ∧ questionScore mcQuestion mcBoolAnswer = 10 := by
  refine ⟨?_, ?_, ?_⟩
  · rw [multiple_choice_score_truthy mcQuestion rfl mcOffMenuAnswer]
    rfl
  · rw [multiple_choice_score_truthy mcQuestion rfl mcEmptyAnswer]
    rfl
  · rw [multiple_choice_score_truthy mcQuestion rfl mcBoolAnswer]
    rfl

/-! ### C8: score bounds under non-negative weights -/

theorem questionScore_eq_zero_or_weight (q : Question) (a : AccountAnswer) :
    questionScore q a = 0 ∨ questionScore q a = q.weight := by
  unfold questionScore
  cases q.type <;> split_ifs <;> simp

theorem contribution_nonneg (aas : List AccountAnswer) (q : Question)
    (h : 0 ≤ q.weight) : 0 ≤ contribution aas q := by
  unfold contribution
  cases hfind : aas.find? (fun a => a.questionId == q.id) with
  | none => simp
  | some a =>
      rcases questionScore_eq_zero_or_weight q a with h0 | hw
      · simp [h0]
      · simp [hw, h]

theorem contribution_le_weight (aas : List AccountAnswer) (q : Question)
    (h : 0 ≤ q.weight) : contribution aas q ≤ q.weight := by
  unfold contribution
  cases hfind : aas.find? (fun a => a.questionId == q.id) with
  | none => simpa using h
  | some a =>
      rcases questionScore_eq_zero_or_weight q a with h0 | hw
      · simp [h0, h]
      · simp [hw]

/-- C8: whenever every question weight is non-negative, the total score of
every evaluated account satisfies `0 ≤ totalScore ≤ maxScore`. -/
theorem totalScore_between_zero_and_max (questions : List Question)
    (answers : List AccountAnswer) (account : Account)
    (h : ∀ q ∈ questions, 0 ≤ q.weight) :
    0 ≤ (evalAccount questions answers account).score.totalScore
    ∧ (evalAccount questions answers account).score.totalScore ≤
        (evalAccount questions answers account).score.maxScore := by
  rw [evalAccount_totalScore, evalAccount_maxScore]
  constructor
  · apply List.sum_nonneg
    intro x hx
    obtain ⟨q, hq, rfl⟩ := List.mem_map.mp hx
    exact contribution_nonneg _ q (h q hq)
  · exact List.sum_le_sum fun q hq => contribution_le_weight _ q (h q hq)

/-- Witness for C8: for the three concrete questions (weights 10, 4, 10, all
non-negative) and one answered question, the bounds hold. -/
theorem totalScore_between_zero_and_max_witness :
    0 ≤ (evalAccount [boolQuestion, numberQuestion, mcQuestion] [boolTrueAnswer]
          sampleAccount).score.totalScore
    ∧ (evalAccount [boolQuestion, numberQuestion, mcQuestion] [boolTrueAnswer]
          sampleAccount).score.totalScore ≤
        (evalAccount [boolQuestion, numberQuestion, mcQuestion] [boolTrueAnswer]
          sampleAccount).score.maxScore := by
  apply totalScore_between_zero_and_max
  intro q hq
  fin_cases hq <;> norm_num [boolQuestion, numberQuestion, mcQuestion]

/-! ### C3: sorting, stability, and dense ranks -/

theorem insertByPercentage_perm (r : EvaluationResult) (l : List EvaluationResult) :
    List.Perm (insertByPercentage r l) (r :: l) := by
  induction l with
  | nil => exact List.Perm.refl _
  | cons x xs ih =>
      unfold insertByPercentage
      split_ifs with hx
      · exact List.Perm.refl _
      · exact (ih.cons x).trans (List.Perm.swap r x xs)

theorem sortByPercentageDesc_perm (l : List EvaluationResult) :
    List.Perm (sortByPercentageDesc l) l := by
  induction l with
  | nil => exact List.Perm.refl _
  | cons r rs ih => exact (insertByPercentage_perm r _).trans (ih.cons r)

theorem insertByPercentage_pairwise (r : EvaluationResult) (l : List EvaluationResult)
    (h : l.Pairwise (fun a b => b.score.percentage ≤ a.score.percentage)) :
    (insertByPercentage r l).Pairwise
      (fun a b => b.score.percentage ≤ a.score.percentage) := by
  induction l with
  | nil => simp [insertByPercentage]
  | cons x xs ih =>
      rw [List.pairwise_cons] at h
      unfold insertByPercentage
      split_ifs with hx
      · refine List.pairwise_cons.mpr ⟨?_, List.pairwise_cons.mpr ⟨h.1, h.2⟩⟩
        intro b hb
        rcases List.mem_cons.mp hb with rfl | hb2
        · exact hx
        · exact le_trans (h.1 b hb2) hx
      · refine List.pairwise_cons.mpr ⟨?_, ih h.2⟩
        intro b hb
        rcases List.mem_cons.mp ((insertByPercentage_perm r xs).mem_iff.mp hb) with rfl | hb2
        · exact le_of_not_le hx
        · exact h.1 b hb2

theorem sortByPercentageDesc_pairwise (l : List EvaluationResult) :
    (sortByPercentageDesc l).Pairwise
      (fun a b => b.score.percentage ≤ a.score.percentage) := by
  induction l with
  | nil => simp [sortByPercentageDesc]
  | cons r rs ih => exact insertByPercentage_pairwise r _ ih

theorem insertByPercentage_filter (r : EvaluationResult) (l : List EvaluationResult) (p : ℤ) :
    (insertByPercentage r l).filter (fun x => x.score.percentage == p)
      = if r.score.percentage = p
          then r :: l.filter (fun x => x.score.percentage == p)
          else l.filter (fun x => x.score.percentage == p) := by
  induction l with
  | nil => by_cases hr : r.score.percentage = p <;> simp [insertByPercentage, hr]
  | cons x xs ih =>
      simp only [insertByPercentage]
      by_cases hx : x.score.percentage ≤ r.score.percentage
      · rw [if_pos hx]
        by_cases hr : r.score.percentage = p <;> simp [List.filter_cons, hr]
      · rw [if_neg hx]
        have hlt : r.score.percentage < x.score.percentage := lt_of_not_le hx
        by_cases hr : r.score.percentage = p
        · have hxp : (x.score.percentage == p) = false := by
            simp only [beq_eq_false_iff_ne, ne_eq]
            omega
          simp [List.filter_cons, hxp, ih, hr]
        · simp [List.filter_cons, ih, hr]

theorem sortByPercentageDesc_filter (l : List EvaluationResult) (p : ℤ) :
    (sortByPercentageDesc l).filter (fun x => x.score.percentage == p)
      = l.filter (fun x => x.score.percentage == p) := by
  induction l with
  | nil => rfl
  | cons r rs ih =>
      show (insertByPercentage r (sortByPercentageDesc rs)).filter _ = _
      rw [insertByPercentage_filter]
      by_cases hr : r.score.percentage = p <;> simp [List.filter_cons, hr, ih]

theorem assignRanks_length (i : ℕ) (l : List EvaluationResult) :
    (assignRanks i l).length = l.length := by
  induction l generalizing i with
  | nil => rfl
  | cons r rs ih => simp [assignRanks, ih]

theorem assignRanks_map_rank (i : ℕ) (l : List EvaluationResult) :
    (assignRanks i l).map (fun r => r.score.rank) = List.range' i l.length := by
  induction l generalizing i with
  | nil => rfl
  | cons r rs ih => simp [assignRanks, ih, List.range'_succ]

theorem assignRanks_map_account (i : ℕ) (l : List EvaluationResult) :
    (assignRanks i l).map EvaluationResult.account = l.map EvaluationResult.account := by
  induction l generalizing i with
  | nil => rfl
  | cons r rs ih => simp [assignRanks, ih]

theorem assignRanks_map_percentage (i : ℕ) (l : List EvaluationResult) :
    (assignRanks i l).map (fun r => r.score.percentage)
      = l.map (fun r => r.score.percentage) := by
  induction l generalizing i with
  | nil => rfl
  | cons r rs ih => simp [assignRanks, ih]

theorem assignRanks_filter_account (i : ℕ) (l : List EvaluationResult) (p : ℤ) :
    ((assignRanks i l).filter (fun r => r.score.percentage == p)).map
        EvaluationResult.account
      = (l.filter (fun r => r.score.percentage == p)).map EvaluationResult.account := by
  induction l generalizing i with
  | nil => rfl
  | cons r rs ih =>
      by_cases h : r.score.percentage = p <;>
        simp [assignRanks, List.filter_cons, h, ih]

/-- C3: `calculateScores` returns one result per input account (a
permutation of the accounts, of the same length), sorted by percentage
descending; the sort is stable — for every percentage value, the accounts
holding it appear in their input order — and after sorting the ranks read
off as the dense sequence `1..N`. -/
theorem ranking_dense_stable (accounts : List Account) (questions : List Question)
    (answers : List AccountAnswer) :
    (calculateScores accounts questions answers).length = accounts.length
    ∧ List.Perm
        ((calculateScores accounts questions answers).map EvaluationResult.account)
        accounts
    ∧ (calculateScores accounts questions answers).Pairwise
        (fun r s => s.score.percentage ≤ r.score.percentage)
    ∧ (∀ p : ℤ,
        ((calculateScores accounts questions answers).filter
            (fun r => r.score.percentage == p)).map EvaluationResult.account
          = accounts.filter
              (fun a => (evalAccount questions answers a).score.percentage == p))
    ∧ (calculateScores accounts questions answers).map (fun r => r.score.rank)
        = List.range' 1 accounts.length := by
  have hmapacc :
      (accounts.map (evalAccount questions answers)).map EvaluationResult.account
        = accounts := by
    rw [List.map_map]
    exact (List.map_congr_left fun a _ => rfl).trans (List.map_id accounts)
  have hlen :
      (sortByPercentageDesc (accounts.map (evalAccount questions answers))).length
        = accounts.length := by
    rw [(sortByPercentageDesc_perm _).length_eq, List.length_map]
  refine ⟨?_, ?_, ?_, ?_, ?_⟩
  · rw [calculateScores, assignRanks_length, hlen]
  · rw [calculateScores, assignRanks_map_account]
    have h2 := (sortByPercentageDesc_perm
      (accounts.map (evalAccount questions answers))).map EvaluationResult.account
    rw [hmapacc] at h2
    exact h2
  · have hpw := sortByPercentageDesc_pairwise (accounts.map (evalAccount questions answers))
    have hmp :
        ((calculateScores accounts questions answers).map
            (fun r => r.score.percentage)).Pairwise (fun a b : ℤ => b ≤ a) := by
      rw [calculateScores, assignRanks_map_percentage]
      exact List.pairwise_map.mpr hpw
    exact List.pairwise_map.mp hmp
  · intro p
    rw [calculateScores, assignRanks_filter_account, sortByPercentageDesc_filter,
      List.filter_map, List.map_map]
    exact (List.map_congr_left fun a _ => rfl).trans (List.map_id _)
  · rw [calculateScores, assignRanks_map_rank, hlen]

/-! ### C9: the CSV byte format -/

theorem intercalate_six (s a b c d e f : String) :
    String.intercalate s [a, b, c, d, e, f]
      = a ++ s ++ b ++ s ++ c ++ s ++ d ++ s ++ e ++ s ++ f := rfl

theorem resultRow_join (result : EvaluationResult) :
    String.intercalate "," (resultRow result)
      = toString result.score.rank ++ "," ++ result.account.name ++ ","
        ++ result.account.industry ++ ","
        ++ jsRatToString result.score.totalScore ++ "/"
        ++ jsRatToString result.score.maxScore ++ ","
        ++ toString result.score.percentage ++ "%" ++ ","
        ++ tierToString result.score.tier := by
  unfold resultRow
  rw [intercalate_six]
  simp [String.append_assoc]

/-- C9: the CSV export is the literal header row
`Rank,Company,Industry,Score,Percentage,Tier` followed, joined with
newlines, by one row per result, each row byte-for-byte
`rank,name,industry,total/max,percentage%,tier`; the rows appear in
ascending rank order because the results carry the ranks `1..N` in order. -/
theorem csv_export_format (accounts : List Account) (questions : List Question)
    (answers : List AccountAnswer) :
    exportResults (calculateScores accounts questions answers)
      = String.intercalate "\n"
          ("Rank,Company,Industry,Score,Percentage,Tier" ::
            (calculateScores accounts questions answers).map (fun result =>
              toString result.score.rank ++ "," ++ result.account.name ++ ","
                ++ result.account.industry ++ ","
                ++ jsRatToString result.score.totalScore ++ "/"
                ++ jsRatToString result.score.maxScore ++ ","
                ++ toString result.score.percentage ++ "%" ++ ","
                ++ tierToString result.score.tier))
    ∧ (calculateScores accounts questions answers).map (fun r => r.score.rank)
        = List.range' 1 accounts.length := by
  constructor
  · unfold exportResults
    simp only [List.map_cons, List.map_map]
    have hhead : String.intercalate ","
        ["Rank", "Company", "Industry", "Score", "Percentage", "Tier"]
        = "Rank,Company,Industry,Score,Percentage,Tier" := by
      show "Rank" ++ "," ++ "Company" ++ "," ++ "Industry" ++ "," ++ "Score" ++ ","
        ++ "Percentage" ++ "," ++ "Tier" = _
      simp
    apply congrArg (String.intercalate "\n")
    rw [hhead]
    exact congrArg (List.cons _) (List.map_congr_left fun r _ => resultRow_join r)
  · rw [calculateScores, assignRanks_map_rank, (sortByPercentageDesc_perm _).length_eq,
      List.length_map]

/-! ### C10: duplicate answers — the first one wins, all are kept -/

theorem find?_append_some {α : Type} {p : α → Bool} {l₁ : List α} (l₂ : List α)
    {a : α} (h : l₁.find? p = some a) : (l₁ ++ l₂).find? p = some a := by
  induction l₁ with
  | nil => simp [List.find?] at h
  | cons x xs ih =>
      rw [List.cons_append]
      cases hx : p x with
      | true => simp [List.find?, hx] at h ⊢; exact h
      | false =>
          simp only [List.find?, hx] at h ⊢
          exact ih h

theorem find?_append_none {α : Type} {p : α → Bool} {l₁ : List α} (l₂ : List α)
    (h : l₁.find? p = none) : (l₁ ++ l₂).find? p = l₂.find? p := by
  induction l₁ with
  | nil => rfl
  | cons x xs ih =>
      rw [List.cons_append]
      cases hx : p x with
      | true => simp [List.find?, hx] at h
      | false =>
          simp only [List.find?, hx] at h ⊢
          exact ih h

theorem filter_find_eq {α : Type} (l : List α) (p q : α → Bool) :
    (l.filter p).find? q = l.find? (fun a => p a && q a) := by
  induction l with
  | nil => rfl
  | cons x xs ih =>
      cases hp : p x with
      | false => simp [List.filter_cons, hp, List.find?, ih]
      | true =>
          cases hq : q x with
          | false => simp [List.filter_cons, hp, List.find?, hq, ih]
          | true => simp [List.filter_cons, hp, List.find?, hq]

theorem contribution_append_dup (aas : List AccountAnswer) (dup : AccountAnswer)
    (q : Question) (h : dup.questionId = q.id → ∃ a ∈ aas, a.questionId = q.id) :
    contribution (aas ++ [dup]) q = contribution aas q := by
  unfold contribution
  cases hfind : aas.find? (fun a => a.questionId == q.id) with
  | some a => rw [find?_append_some _ hfind]
  | none =>
      rw [find?_append_none _ hfind]
      have hdq : (dup.questionId == q.id) = false := by
        rw [beq_eq_false_iff_ne]
        intro heq
        obtain ⟨a, ha, haq⟩ := h heq
        have hnone := List.find?_eq_none.mp hfind a ha
        simp [haq] at hnone
      simp [List.find?, hdq]

/-- C10: appending to the answers a second answer for an
`(accountId, questionId)` pair that already has an earlier answer leaves
every total score unchanged — the engine scores with the first matching
answer in input order — while the duplicate still appears (last) in the
account's `answers` field; and the per-question lookup is exactly the first
answer in the input order matching both ids. -/
theorem duplicate_answer_first_wins (questions : List Question)
    (answers : List AccountAnswer) (account : Account) (dup : AccountAnswer)
    (hacc : dup.accountId = account.id)
    (hdup : ∃ a ∈ answers, a.accountId = account.id ∧ a.questionId = dup.questionId) :
    (evalAccount questions (answers ++ [dup]) account).score.totalScore
        = (evalAccount questions answers account).score.totalScore
    ∧ (evalAccount questions (answers ++ [dup]) account).answers
        = (evalAccount questions answers account).answers ++ [dup]
    ∧ (∀ qid : String,
        (answers.filter (fun a => a.accountId == account.id)).find?
            (fun a => a.questionId == qid)
          = answers.find? (fun a => a.accountId == account.id && a.questionId == qid)) := by
  have hfilter : (answers ++ [dup]).filter (fun a => a.accountId == account.id)
      = answers.filter (fun a => a.accountId == account.id) ++ [dup] := by
    rw [List.filter_append]
    congr 1
    simp [List.filter, hacc]
  refine ⟨?_, ?_, ?_⟩
  · rw [evalAccount_totalScore, evalAccount_totalScore, hfilter]
    apply congrArg List.sum
    apply List.map_congr_left
    intro q hq
    apply contribution_append_dup
    intro hdq
    obtain ⟨a, ha, haacc, haq⟩ := hdup
    refine ⟨a, List.mem_filter.mpr ⟨ha, ?_⟩, by rw [haq, hdq]⟩
    simp [haacc]
  · have e1 : (evalAccount questions (answers ++ [dup]) account).answers
        = (answers ++ [dup]).filter (fun a => a.accountId == account.id) := rfl
    have e2 : (evalAccount questions answers account).answers
        = answers.filter (fun a => a.accountId == account.id) := rfl
    rw [e1, e2, hfilter]
  · intro qid
    exact filter_find_eq answers _ _

/-- Witness for C10: with one boolean question of weight 10 answered twice
by the same account — first with the boolean `true`, then with the string
`"true"` — the total score is that of the first answer, and both answers are
kept in the result's `answers` field. -/
theorem duplicate_answer_first_wins_witness :
    (evalAccount [boolQuestion] ([boolTrueAnswer] ++ [strTrueAnswer])
          sampleAccount).score.totalScore
        = (evalAccount [boolQuestion] [boolTrueAnswer] sampleAccount).score.totalScore
    ∧ (evalAccount [boolQuestion] ([boolTrueAnswer] ++ [strTrueAnswer])
          sampleAccount).answers
        = (evalAccount [boolQuestion] [boolTrueAnswer] sampleAccount).answers
            ++ [strTrueAnswer]
    ∧ (∀ qid : String,
        ([boolTrueAnswer].filter (fun a => a.accountId == sampleAccount.id)).find?
            (fun a => a.questionId == qid)
          = [boolTrueAnswer].find?
              (fun a => a.accountId == sampleAccount.id && a.questionId == qid)) :=
  duplicate_answer_first_wins [boolQuestion] [boolTrueAnswer] sampleAccount
    strTrueAnswer rfl ⟨boolTrueAnswer, by simp, rfl, rfl⟩

end AccountTiering
